import Mathlib

/-!
Verification development for the chess-puzzle-extractor pipeline.

The Rust sources are shallowly embedded: chess positions are abstracted to the
observations the embedded functions actually read from them (side to move,
legal-move list, square occupancy, piece counts, castling rights), move
application and SAN rendering are kept as explicit function parameters, the
engine subprocess is modelled as a deterministic oracle from positions to
analysis lines, and machine integers (i32 / i64 centipawn and key values) are
modelled as Int, which is faithful on the value ranges exercised here (all
magnitudes stay far below 2^31).
-/

namespace Cpe

/-- Side to move / piece colour (shakmaty Color). -/
inductive Color
  | White
  | Black
deriving DecidableEq, Repr

/-- Piece roles (shakmaty Role). -/
inductive Role
  | Pawn
  | Knight
  | Bishop
  | Rook
  | Queen
  | King
deriving DecidableEq, Repr

/-- Squares are abstract indices 0..63 (shakmaty Square). -/
abbrev Square := Nat

/-- Moves (shakmaty Move): the constructors and the fields that the embedded
code inspects (dest_sq pattern-matches on them). -/
inductive Move
  | Normal (role : Role) (from_sq : Square) (capture : Option Role) (to_sq : Square)
      (promotion : Option Role)
  | EnPassant (from_sq : Square) (to_sq : Square)
  | Castle (king : Square) (rook : Square)
  | Put (role : Role) (to_sq : Square)
deriving DecidableEq, Repr

/-- Abstraction of a shakmaty Chess position: exactly the observations the
embedded functions read. The field id stands for the rest of the position
state (piece placement etc.), which distinguishes positions but is never
inspected by the embedded code; move application and the engine oracle are
passed as explicit functions on this type. -/
structure Board where
  turn : Color
  legal_moves : List Move
  piece_at : Square → Bool
  is_game_over : Bool
  role_count : Role → Nat
  castle_wk : Bool
  castle_wq : Bool
  castle_bk : Bool
  castle_bq : Bool
  id : Nat

/-- Engine score (ruci Score): centipawns or distance to mate. -/
inductive Score
  | Centipawns (cp : Int)
  | MateIn (m : Int)
deriving DecidableEq, Repr

/-- Modelled from the spec: ruci ScoreStandardized converts the engine's
side-to-move-relative score to White's perspective, negating for Black
(the ruci crate itself is outside src/). Downstream code only pattern-matches
on the carried Score, which is what Engine.key / Engine.to_cp read. -/
def Score.standardized (s : Score) (turn : Color) : Score :=
  match turn with
  | Color.White => s
  | Color.Black =>
    match s with
    | Score.Centipawns cp => Score.Centipawns (-cp)
    | Score.MateIn m => Score.MateIn (-m)

/-- engine.rs: AnalysisOrigin. -/
inductive AnalysisOrigin
  | Engine
  | Syzygy
deriving DecidableEq, Repr

/-- engine.rs: AnalysisInfo (the pv is already converted to moves). -/
structure AnalysisInfo where
  score : Option Score
  depth : Option Nat
  seldepth : Option Nat
  nodes : Option Nat
  pv : List Move
  origin : AnalysisOrigin
deriving DecidableEq, Repr

/-- engine.rs: MATE_KEY_OFFSET. -/
def MATE_KEY_OFFSET : Int := 2000000

/-- config.rs constants (i32 values as Int). -/
def BLUNDER_THRESHOLD : Int := 150

def PUZZLE_UNICITY_THRESHOLD : Int := 200

def ALT_THRESHOLD : Int := 25

def MATE_ALT_THRESHOLD : Int := 2

def COMPLETELY_WINNING_THRESHOLD : Int := 500

def HANGING_THRESHOLD : Int := 400

def WINNING_ADVANTAGE : Int := 150

def DRAWING_RANGE : Int := 100

def MAX_ALTERNATIVE_LINES : Nat := 2

def SOLVER_MIN_MOVES : Nat := 2

namespace Engine

/-- engine.rs: Engine::key, the injection of Score into i64 used for ordering. -/
def key : Score → Int
  | Score.Centipawns cp => cp
  | Score.MateIn m => if 0 ≤ m then MATE_KEY_OFFSET - m else -MATE_KEY_OFFSET - m

/-- engine.rs: Engine::key_diff. -/
def key_diff (a b : Score) : Int := |key a - key b|

/-- engine.rs: Engine::is_mate. -/
def is_mate : Score → Bool
  | Score.MateIn _ => true
  | _ => false

/-- engine.rs: Engine::to_cp, the lossy projection to i32 centipawns. -/
def to_cp : Score → Int
  | Score.Centipawns cp => cp
  | Score.MateIn p => if 0 ≤ p then 100000 - p else -100000 - p

end Engine

/-- The engine subprocess as a deterministic oracle: analyze takes the
position, the search depth and the MultiPV count and yields the lines
(already score-standardized and sorted, as Engine::analyze returns them).
Protocol-level failures (timeouts, spawn errors) are outside this model. -/
abbrev EngineOracle := Board → Nat → Nat → List AnalysisInfo

/-- utils.rs: DepthSet. -/
structure DepthSet where
  scan : Nat
  solve : Nat

/-- candidates.rs: CandidateContext (the engine and progress-bar references are
passed separately as the oracle parameter; they are not data). -/
structure CandidateContext where
  board_pre_blunder : Board
  board_post_blunder : Board
  blunder_move : Move
  prev_cp : Int
  post_cp : Int
  scan_depth : Nat
  move_number : Nat

/-- candidates.rs: PuzzleCandidate. -/
structure PuzzleCandidate where
  board_pre_blunder : Board
  board_post_blunder : Board
  adjusted_board : Board
  blunder_move : Move
  forced_sequence : List Move
  solver_color : Color
  pre_cp : Int
  post_cp : Int
  original_headers : List (String × String)
  move_number : Nat

/-- candidates.rs: dest_sq, the destination square of a move when it has one. -/
def dest_sq : Move → Option Square
  | Move.Normal _ _ _ to_sq _ => some to_sq
  | Move.EnPassant _ to_sq => some to_sq
  | Move.Put _ to_sq => some to_sq
  | Move.Castle _ _ => none

/-- candidates.rs: detect_eval_drop. The board argument is the position before
the played move; only its side to move is read. -/
def detect_eval_drop (board : Board) (prev post : Int) : Bool × Option Color :=
  let diff := prev - post
  if board.turn = Color.Black ∧ BLUNDER_THRESHOLD ≤ diff then
    (true, some Color.White)
  else if board.turn = Color.White ∧ diff ≤ -BLUNDER_THRESHOLD then
    (true, some Color.Black)
  else
    (false, none)

/-- candidates.rs: skip_forced_move. -/
def skip_forced_move (board : Board) (solver : Color) : Board × List Move × Bool :=
  if board.turn ≠ solver then (board, [], true)
  else (board, [], decide (1 < board.legal_moves.length))

/-- candidates.rs: is_hanging. Besides the boolean verdict, the embedding
returns the list of positions submitted to the engine (the second component),
needed for the one-call-per-ply analysis of Phase 1. -/
def is_hanging (e : EngineOracle) (board : Board) (target : Square) (depth : Nat) :
    Bool × List Board :=
  let infos := e board depth 2
  let r :=
    match infos with
    | i0 :: i1 :: _ =>
      let cap_good := ((i0.pv.head?).bind dest_sq) = some target
      if ¬ cap_good then false
      else HANGING_THRESHOLD ≤
        Engine.key_diff (i0.score.getD (Score.Centipawns 0)) (i1.score.getD (Score.Centipawns 0))
    | _ => false
  (r, [board])

/-- candidates.rs: the loop body of sequential_caps, by fuel on the remaining
iterations (the Rust loop runs while n is below the bound). The playc
parameter is shakmaty's checked Chess::play, whose failure propagates. -/
def sequential_caps_go (e : EngineOracle) (playc : Board → Move → Except String Board)
    (depth : Nat) : Nat → Board → Nat → Except String Bool × List Board
  | 0, _, n => (Except.ok (decide (2 ≤ n)), [])
  | Nat.succ fuel, b, n =>
    if b.is_game_over then (Except.ok (decide (2 ≤ n)), [])
    else
      let lines := e b depth 1
      match (lines.head?).bind (fun i => i.pv.head?) with
      | none => (Except.ok (decide (2 ≤ n)), [b])
      | some m =>
        let is_cap :=
          match m with
          | Move.Normal _ _ _ to_sq _ => b.piece_at to_sq
          | Move.EnPassant _ _ => true
          | _ => false
        if !is_cap then (Except.ok false, [b])
        else
          match playc b m with
          | Except.error s => (Except.error s, [b])
          | Except.ok b2 =>
            let r := sequential_caps_go e playc depth fuel b2 (n + 1)
            (r.1, b :: r.2)

/-- candidates.rs: sequential_caps (called with maximum 5). -/
def sequential_caps (e : EngineOracle) (playc : Board → Move → Except String Board)
    (board : Board) (depth : Nat) (maxn : Nat) : Except String Bool × List Board :=
  sequential_caps_go e playc depth maxn board 0

/-- candidates.rs: find_candidate, the Phase-1 pipeline on one context.
Returns the result together with the positions submitted to the engine.
The unreachable unwrap of solver_color (detect_eval_drop never pairs true
with none) is modelled as an error, mirroring the Rust panic path. -/
def find_candidate (e : EngineOracle) (playc : Board → Move → Except String Board)
    (ctx : CandidateContext) : Except String (Option PuzzleCandidate) × List Board :=
  match detect_eval_drop ctx.board_pre_blunder ctx.prev_cp ctx.post_cp with
  | (false, _) => (Except.ok none, [])
  | (true, none) => (Except.error ("unwrap"), [])
  | (true, some solver) =>
    match skip_forced_move ctx.board_post_blunder solver with
    | (adjusted, forced, valid) =>
      if ¬ valid then (Except.ok none, [])
      else
        let hang :=
          match dest_sq ctx.blunder_move with
          | some tgt => is_hanging e ctx.board_post_blunder tgt ctx.scan_depth
          | none => (false, [])
        if hang.1 then (Except.ok none, hang.2)
        else
          match sequential_caps e playc ctx.board_post_blunder ctx.scan_depth 5 with
          | (Except.error s, lg) => (Except.error s, hang.2 ++ lg)
          | (Except.ok true, lg) => (Except.ok none, hang.2 ++ lg)
          | (Except.ok false, lg) =>
            (Except.ok (some
              { board_pre_blunder := ctx.board_pre_blunder
                board_post_blunder := ctx.board_post_blunder
                adjusted_board := adjusted
                blunder_move := ctx.blunder_move
                forced_sequence := forced
                solver_color := solver
                pre_cp := ctx.prev_cp
                post_cp := ctx.post_cp
                original_headers := []
                move_number := ctx.move_number }), hang.2 ++ lg)

/-- candidates.rs: CandidateContext::for_blunder. Analyzes the position before
the played move, applies the move (play_unchecked, the play parameter), and
analyzes the resulting position; errors when either analysis yields no line or
when the evaluation drop is below the blunder threshold. The second component
lists the positions submitted to the engine, in order. -/
def for_blunder (e : EngineOracle) (play : Board → Move → Board) (board : Board)
    (actual_move : Move) (d : DepthSet) (move_number : Nat) :
    Except String CandidateContext × List Board :=
  match (e board d.scan 1).head? with
  | none => (Except.error ("sem análise pré"), [board])
  | some a_prev =>
    let prev_cp := Engine.to_cp (a_prev.score.getD (Score.Centipawns 0))
    let board_post := play board actual_move
    match (e board_post d.scan 1).head? with
    | none => (Except.error ("sem análise pós"), [board, board_post])
    | some a_post =>
      let post_cp := Engine.to_cp (a_post.score.getD (Score.Centipawns 0))
      if prev_cp - post_cp < BLUNDER_THRESHOLD then
        (Except.error ("queda insuficiente"), [board, board_post])
      else
        (Except.ok
          { board_pre_blunder := board
            board_post_blunder := board_post
            blunder_move := actual_move
            prev_cp := prev_cp
            post_cp := post_cp
            scan_depth := d.scan
            move_number := move_number }, [board, board_post])

/-- utils.rs: MoveRecord, restricted to the fields Phase 1 consumes. -/
structure MoveRecord where
  board : Board
  mv : Move
  move_idx : Nat

/-- generator.rs: the Phase-1 loop of generate_puzzles. Each played move gets a
for_blunder context attempt; on success find_candidate runs and a returned
candidate is collected. The second component accumulates every position
submitted to the engine during the phase, in order. -/
def phase1 (e : EngineOracle) (play : Board → Move → Board)
    (playc : Board → Move → Except String Board) (d : DepthSet)
    (records : List MoveRecord) : List PuzzleCandidate × List Board :=
  records.foldl
    (fun acc rec =>
      match for_blunder e play rec.board rec.mv d rec.move_idx with
      | (Except.error _, lg) => (acc.1, acc.2 ++ lg)
      | (Except.ok ctx, lg) =>
        match find_candidate e playc ctx with
        | (Except.ok (some c), lg2) => (acc.1 ++ [c], acc.2 ++ lg ++ lg2)
        | (_, lg2) => (acc.1, acc.2 ++ lg ++ lg2))
    ([], [])

/-- Stable insertion of an element after every element of no larger key:
together with sort_by_key below this models Rust's stable sort_by_key
(a stable ascending sort is uniquely determined by the key function, so any
stable implementation gives the same list). -/
def insert_stable (keyf : α → Int) : List α → α → List α
  | [], a => [a]
  | b :: bs, a =>
    if keyf b ≤ keyf a then b :: insert_stable keyf bs a else a :: b :: bs

/-- Rust slice::sort_by_key (stable, ascending) on lists. -/
def sort_by_key (keyf : α → Int) (l : List α) : List α :=
  l.foldl (insert_stable keyf) []

/-- analysis.rs: SolverResponse. -/
structure SolverResponse where
  solution_move : Move
  alternative_moves : List Move
  ambiguous : Bool
  score : Score
  post_cp : Int
deriving DecidableEq, Repr

/-- analysis.rs: solver_response. Analyzes with MAX_ALTERNATIVE_LINES + 2
principal variations, keeps lines with a score and a non-empty pv, orders them
best-for-the-solver first (sign -1 for a White solver), builds the equivalence
cluster and the ambiguity verdict. With the engine modelled as a total oracle
the Result wrapper carries no failure, so the return is the inner Option. -/
def solver_response (e : EngineOracle) (board : Board) (solver_color : Color)
    (_pre_cp : Int) (d : DepthSet) : Option SolverResponse :=
  let infos := e board d.solve (MAX_ALTERNATIVE_LINES + 2)
  if infos.isEmpty then none
  else
    let sign : Int := if solver_color = Color.White then -1 else 1
    let ordered := sort_by_key
      (fun i => sign * Engine.key (i.score.getD (Score.Centipawns 0)))
      (infos.filter (fun i => i.score.isSome && !i.pv.isEmpty))
    match ordered with
    | [] => none
    | o0 :: _ =>
      let base := o0.score.getD (Score.Centipawns 0)
      let thr := if Engine.is_mate base then MATE_ALT_THRESHOLD else ALT_THRESHOLD
      let cluster := (ordered.takeWhile
          (fun i => decide (Engine.key_diff base (i.score.getD (Score.Centipawns 0)) ≤ thr))).filterMap
          (fun i => i.pv.head?)
      match cluster with
      | [] => none
      | c0 :: crest =>
        let ambiguous :=
          decide ((c0 :: crest).length < ordered.length) &&
            (match ordered[(c0 :: crest).length]? with
             | some i => decide
                 (Engine.key_diff base (i.score.getD (Score.Centipawns 0)) <
                   PUZZLE_UNICITY_THRESHOLD)
             | none => false)
        some
          { solution_move := c0
            alternative_moves := crest
            ambiguous := ambiguous
            score := base
            post_cp := Engine.to_cp base }

/-- analysis.rs: puzzle_is_interesting. -/
def puzzle_is_interesting (e : EngineOracle) (board : Board) (_solver : Color)
    (pre_cp : Int) (depth : Nat) : Bool :=
  if |pre_cp| < COMPLETELY_WINNING_THRESHOLD then true
  else
    match e board depth 2 with
    | _ :: i1 :: _ =>
      let second_cp := Engine.to_cp (i1.score.getD (Score.Centipawns 0))
      decide (|second_cp| ≤ DRAWING_RANGE) ||
        (decide (0 < pre_cp) && decide (second_cp < -DRAWING_RANGE)) ||
        (decide (pre_cp < 0) && decide (DRAWING_RANGE < second_cp))
    | _ => true

/-- engine.rs: Engine::best_move. Pops the last returned line and takes the
first pv move; the UciMove round trip through to_move is modelled as the
identity on the carried move. -/
def best_move (e : EngineOracle) (board : Board) (depth : Nat) : Option Move :=
  ((e board depth 1).getLast?).bind (fun i => i.pv.head?)

/-- builder.rs: PuzzleSeq. -/
structure PuzzleSeq where
  moves : List Move
  alternatives : List (List Move)
  final_cp : Int
  is_mate : Bool
deriving DecidableEq, Repr

/-- builder.rs: TacticalObjective. -/
inductive TacticalObjective
  | Mate
  | Reversal
  | Advantage
  | Equalization
  | Resistance
  | Tactical
deriving DecidableEq, Repr

/-- builder.rs: classify_tactic. -/
def classify_tactic (post final_cp : Int) (mate : Bool) : TacticalObjective :=
  if mate then TacticalObjective.Mate
  else if post < 0 ∧ WINNING_ADVANTAGE ≤ final_cp then TacticalObjective.Reversal
  else if WINNING_ADVANTAGE ≤ final_cp then TacticalObjective.Advantage
  else if post < -DRAWING_RANGE ∧ |final_cp| ≤ DRAWING_RANGE then TacticalObjective.Equalization
  else if post < 0 ∧ final_cp < 0 then TacticalObjective.Resistance
  else TacticalObjective.Tactical

/-- builder.rs: the solver/opponent loop of create_puzzle_tree, by fuel on the
iteration count (the Rust loop is unbounded; every theorem below instantiates
the fuel above the length of the run it talks about, and exhausted fuel is
reported as no puzzle). On an ambiguous solver response the loop breaks with
Exit::Abort, which the caller maps to no puzzle; when the opponent has no
reply it breaks with Exit::Finish and finalizes: drop a trailing opponent
move, require SOLVER_MIN_MOVES solver moves, and package the sequence. -/
def create_puzzle_tree_go (e : EngineOracle) (play : Board → Move → Board)
    (solver_color : Color) (pre_cp : Int) (d : DepthSet) :
    Nat → Board → List Move → List (List Move) → Nat → Option PuzzleSeq
  | 0, _, _, _, _ => none
  | Nat.succ fuel, board, seq, alts, nsol =>
    match solver_response e board solver_color pre_cp d with
    | none => none
    | some sr =>
      if sr.ambiguous then none
      else
        let seq1 := seq ++ [sr.solution_move]
        let nsol1 := nsol + 1
        let alts1 :=
          if 0 < MAX_ALTERNATIVE_LINES then
            let keep := sr.alternative_moves.take MAX_ALTERNATIVE_LINES
            if keep.isEmpty then alts else alts ++ [keep]
          else alts
        let board1 := play board sr.solution_move
        match best_move e board1 d.solve with
        | some reply =>
          create_puzzle_tree_go e play solver_color pre_cp d fuel (play board1 reply)
            (seq1 ++ [reply]) alts1 nsol1
        | none =>
          let seq2 := if seq1.length % 2 = 0 then seq1.dropLast else seq1
          if nsol1 < SOLVER_MIN_MOVES then none
          else
            some
              { moves := seq2
                alternatives := alts1
                final_cp := sr.post_cp
                is_mate := Engine.is_mate sr.score }

/-- builder.rs: create_puzzle_tree. -/
def create_puzzle_tree (fuel : Nat) (e : EngineOracle) (play : Board → Move → Board)
    (start : Board) (solver_color : Color) (pre_cp : Int) (d : DepthSet) :
    Option PuzzleSeq :=
  if !puzzle_is_interesting e start solver_color pre_cp d.solve then none
  else create_puzzle_tree_go e play solver_color pre_cp d fuel start [] [] 0

/-- builder.rs: GamePhase. -/
inductive GamePhase
  | Opening
  | Middlegame
  | Endgame
deriving DecidableEq, Repr

/-- builder.rs: the running phase value of classify_phase: the weighted material
start value 2 * (0*8 + 1*2 + 1*2 + 2*2 + 4) = 24 minus weight * piece count for
each of pawn, knight, bishop, rook, queen (role_count is the total over both
colours, matching our(r) plus their(r)). -/
def phase_value (board : Board) : Int :=
  2 * (0 * 8 + 1 * 2 + 1 * 2 + 2 * 2 + 4)
    - 0 * (board.role_count Role.Pawn : Int)
    - 1 * (board.role_count Role.Knight : Int)
    - 1 * (board.role_count Role.Bishop : Int)
    - 2 * (board.role_count Role.Rook : Int)
    - 4 * (board.role_count Role.Queen : Int)

/-- builder.rs: the material factor of classify_phase, phase / 196. -/
def materialTerm (board : Board) : ℚ := (phase_value board : ℚ) / 196

/-- builder.rs: the count of still-available castling rights (0..4). -/
def castleCount (board : Board) : Nat :=
  (if board.castle_wk then 1 else 0) + (if board.castle_wq then 1 else 0) +
    (if board.castle_bk then 1 else 0) + (if board.castle_bq then 1 else 0)

/-- builder.rs: classify_phase. The f32 arithmetic is modelled over ℚ: every
quantity involved is a ratio of small integers, the combined value stays below
0.562 while the Opening test is against 0.80 and the Endgame test against
0.20, and single-precision rounding (relative error at most 2^-24 per
operation on these magnitudes) cannot bridge those gaps, so the ℚ model and
the f32 code classify identically. -/
def classify_phase (board : Board) (plies : Nat) : GamePhase :=
  let material := materialTerm board
  let ply_norm : ℚ := min ((plies : ℚ) / 80) 1
  let rights : ℚ := (castleCount board : ℚ) / 4
  let v := (material * 2 + ply_norm + rights) / 4
  if 4 / 5 ≤ v then GamePhase.Opening
  else if v ≤ 1 / 5 then GamePhase.Endgame
  else GamePhase.Middlegame

/-- Debug formatting of GamePhase, as interpolated into the Phase header. -/
def phase_str : GamePhase → String
  | GamePhase.Opening => "Opening"
  | GamePhase.Middlegame => "Middlegame"
  | GamePhase.Endgame => "Endgame"

/-- Debug formatting of TacticalObjective, as interpolated into the Tactical
header. -/
def tactic_str : TacticalObjective → String
  | TacticalObjective.Mate => "Mate"
  | TacticalObjective.Reversal => "Reversal"
  | TacticalObjective.Advantage => "Advantage"
  | TacticalObjective.Equalization => "Equalization"
  | TacticalObjective.Resistance => "Resistance"
  | TacticalObjective.Tactical => "Tactical"

/-- IndexMap::insert on an association list in insertion order: an existing key
keeps its position and gets the new value, a new key is appended. -/
def indexmap_insert (l : List (String × String)) (k v : String) :
    List (String × String) :=
  if l.any (fun kv => kv.1 = k) then l.map (fun kv => if kv.1 = k then (k, v) else kv)
  else l ++ [(k, v)]

/-- Collecting an iterator of pairs into an IndexMap (repeated insert). -/
def indexmap_of (l : List (String × String)) : List (String × String) :=
  l.foldl (fun m kv => indexmap_insert m kv.1 kv.2) []

/-- builder.rs: the header block built by process_puzzle: the candidate's
original_headers plus Phase, Tactical, SetUp and FEN. fen_of stands for
Fen::from_position on the pre-blunder board. -/
def puzzle_headers (fen_of : Board → String) (candidate : PuzzleCandidate)
    (seq : PuzzleSeq) : List (String × String) :=
  let phase := classify_phase candidate.board_post_blunder candidate.move_number
  let tactic := classify_tactic candidate.post_cp seq.final_cp seq.is_mate
  let hdr := indexmap_of candidate.original_headers
  let hdr := indexmap_insert hdr ("Phase") (phase_str phase)
  let hdr := indexmap_insert hdr ("Tactical") (tactic_str tactic)
  let hdr := indexmap_insert hdr ("SetUp") ("1")
  indexmap_insert hdr ("FEN") (fen_of candidate.board_pre_blunder)

/-- builder.rs: the full move list built by process_puzzle: the blunder move
followed by the sequence moves. -/
def puzzle_moves (candidate : PuzzleCandidate) (seq : PuzzleSeq) : List Move :=
  candidate.blunder_move :: seq.moves

/-- Rust str::ends_with on a single space, on the character list. -/
def ends_with_space (s : String) : Bool := s.data.getLast? = some ' '

/-- Rust String::pop (dropping the last character), on the character list. -/
def drop_right_one (s : String) : String := String.mk s.data.dropLast

/-- Rust str::trim_end (dropping trailing whitespace), on the character list. -/
def trim_end_str (s : String) : String :=
  String.mk (s.data.reverse.dropWhile (fun c => c.isWhitespace)).reverse

/-- utils.rs: one PGN header line. -/
def header_line (kv : String × String) : String :=
  "[" ++ kv.1 ++ " \"" ++ kv.2 ++ "\"]\n"

/-- utils.rs: build_pgn_san. The san parameter is San::from_move (rendering a
move on the given position), play is Chess::play_unchecked, parse_fen is the
Fen parse plus into_position chain, and default_board is Chess::default().
After the headers and the numbered mainline, each alternative line is played
from the position reached after the whole mainline (the local variable main),
each fragment dropping a trailing space and closing with a parenthesis, and
the result is trimmed at the end. -/
def build_pgn_san (san : Board → Move → String) (play : Board → Move → Board)
    (parse_fen : String → Except String Board) (default_board : Board)
    (hdr : List (String × String)) (seq : PuzzleSeq) : Except String String :=
  let pgn0 := (hdr.foldl (fun s kv => s ++ header_line kv) ("")) ++ "\n"
  let fen_entry := hdr.findSome?
    (fun kv => if kv.1.toLower = "fen" then some kv.2 else none)
  let board0e :=
    match fen_entry with
    | some f => parse_fen f
    | none => Except.ok default_board
  match board0e with
  | Except.error s => Except.error s
  | Except.ok board0 =>
    let init := board0.turn
    let ms := (seq.moves.enum).foldl
      (fun (acc : String × Board) im =>
        let i := im.1
        let mv := im.2
        let s1 :=
          if i = 0 then acc.1 ++ "1" ++ (if init = Color.White then "." else "…") ++ " "
          else if (init = Color.White ∧ i % 2 = 0) ∨ (init = Color.Black ∧ i % 2 = 1) then
            acc.1 ++ toString (i / 2 + 1) ++ ". "
          else acc.1
        (s1 ++ san acc.2 mv ++ " ", play acc.2 mv))
      (pgn0, board0)
    let main := ms.2
    let withAlts := seq.alternatives.foldl
      (fun s var =>
        let inner := var.foldl
          (fun (acc : String × Board) mv => (acc.1 ++ san acc.2 mv ++ " ", play acc.2 mv))
          (s ++ "(", main)
        let trimmed := if ends_with_space inner.1 then drop_right_one inner.1 else inner.1
        trimmed ++ ") ")
      ms.1
    Except.ok (trim_end_str withAlts)

/-- builder.rs: process_puzzle, composing the header block, the blunder-first
move list and the PGN rendering. -/
def process_puzzle (san : Board → Move → String) (play : Board → Move → Board)
    (parse_fen : String → Except String Board) (default_board : Board)
    (fen_of : Board → String) (candidate : PuzzleCandidate) (seq : PuzzleSeq) :
    Except String String :=
  build_pgn_san san play parse_fen default_board (puzzle_headers fen_of candidate seq)
    { moves := puzzle_moves candidate seq
      alternatives := seq.alternatives
      final_cp := seq.final_cp
      is_mate := seq.is_mate }

/-- shakmaty_syzygy Wdl. -/
inductive Wdl
  | Loss
  | BlessedLoss
  | Draw
  | CursedWin
  | Win
deriving DecidableEq, Repr

/-- The Syzygy tablebase as lookup oracles for the win/draw/loss verdict and
the distance-to-zeroing metric of a position; a failed probe is an error. -/
structure TbOracle where
  wdl : Board → Except String Wdl
  dtz : Board → Except String Int

/-- engine.rs: the occupied-square count read in Engine::analyze, derived from
the occupancy observation of the board. -/
def occupied_count (board : Board) : Nat :=
  ((List.range 64).filter (fun s => board.piece_at s)).length

/-- engine.rs: probe_tablebase. For each legal move the position after the move
is probed; a losing side prefers the largest distance, otherwise the smallest;
the chosen distance synthesizes MateIn for negative distances and 0 cp
otherwise, standardized to White; no chosen move is an error. -/
def probe_tablebase (t : TbOracle) (playc : Board → Move → Except String Board)
    (board : Board) : Except String AnalysisInfo := do
  let best ← board.legal_moves.foldlM
    (fun (best : Option (Int × Move)) mv => do
      let pos ← playc board mv
      let w ← t.wdl pos
      let z ← t.dtz pos
      let want_min := w ≠ Wdl.Loss
      let better :=
        match best with
        | none => true
        | some pm => if want_min then decide (z < pm.1) else decide (pm.1 < z)
      pure (if better then some (z, mv) else best))
    none
  match best with
  | none => Except.error ("tablebase não gerou movimento")
  | some zm =>
    let raw := if zm.1 < 0 then Score.MateIn (-zm.1) else Score.Centipawns 0
    Except.ok
      { score := some (raw.standardized board.turn)
        depth := none
        seldepth := none
        nodes := none
        pv := [zm.2]
        origin := AnalysisOrigin.Syzygy }

/-- engine.rs: the head of Engine::analyze. When a tablebase is loaded and at
most 7 squares are occupied the probe result is returned as the single line,
with the probe error propagated by the question-mark operator; otherwise the
request goes to the engine search, abstracted as the oracle e (position
submission, MultiPV tracking, info parsing and side-sign sorting live behind
it). -/
def analyze_with_tb (tb : Option TbOracle) (playc : Board → Move → Except String Board)
    (e : EngineOracle) (board : Board) (depth mpv : Nat) :
    Except String (List AnalysisInfo) :=
  match tb with
  | some t =>
    if occupied_count board ≤ 7 then
      match probe_tablebase t playc board with
      | Except.error s => Except.error s
      | Except.ok info => Except.ok [info]
    else Except.ok (e board depth mpv)
  | none => Except.ok (e board depth mpv)

/-- Modelled from the spec: the solver-colour rule as claim C1 words it — the
side whose White-perspective evaluation went up, White if post_cp is greater
than prev_cp and Black otherwise — stated for comparison with
detect_eval_drop. -/
def spec_solver_color (prev post : Int) : Color :=
  if prev < post then Color.White else Color.Black

/-- Modelled from the spec: the blunder test as claim C7 words it — the
absolute swing reaches BLUNDER_THRESHOLD in either direction — stated for
comparison with detect_eval_drop and for_blunder. -/
def spec_blunder (prev post : Int) : Bool :=
  decide (BLUNDER_THRESHOLD ≤ |post - prev|)

/-- A board template for concrete runs: the stated turn, legal moves and
position id, no occupancy, no pieces counted, no castling rights. -/
def mkBoard (turn : Color) (lm : List Move) (idn : Nat) : Board :=
  { turn := turn
    legal_moves := lm
    piece_at := fun _ => false
    is_game_over := false
    role_count := fun _ => 0
    castle_wk := false
    castle_wq := false
    castle_bk := false
    castle_bq := false
    id := idn }

/-- A family of distinct normal knight moves for concrete runs. -/
def mvN (n : Nat) : Move := Move.Normal Role.Knight n none (n + 8) none

/-- An analysis line with the given score and pv. -/
def mkLine (s : Score) (pv : List Move) : AnalysisInfo :=
  { score := some s
    depth := none
    seldepth := none
    nodes := none
    pv := pv
    origin := AnalysisOrigin.Engine }

/-- A concrete move application: the successor position (id increments). -/
def play0 (b : Board) (_ : Move) : Board := { b with id := b.id + 1 }

/-- The checked variant of play0, never failing. -/
def playc0 (b : Board) (m : Move) : Except String Board := Except.ok (play0 b m)

/-- Depths used by the concrete runs. -/
def d2 : DepthSet := { scan := 1, solve := 1 }

/-- Concrete scanner run A (used for C1 and C4): Black moved, the evaluation
fell from 200 to 0, the post position leaves the White solver two legal
replies, and the engine oracle returns no lines so both optional filters
pass. -/
def pre1 : Board := mkBoard Color.Black [] 0

def post1 : Board := mkBoard Color.White [mvN 0, mvN 1] 1

def e1 : EngineOracle := fun _ _ _ => []

def ctx1 : CandidateContext :=
  { board_pre_blunder := pre1
    board_post_blunder := post1
    blunder_move := mvN 2
    prev_cp := 200
    post_cp := 0
    scan_depth := 1
    move_number := 10 }

/-- The candidate that run A emits. -/
def cand1 : PuzzleCandidate :=
  { board_pre_blunder := pre1
    board_post_blunder := post1
    adjusted_board := post1
    blunder_move := mvN 2
    forced_sequence := []
    solver_color := Color.White
    pre_cp := 200
    post_cp := 0
    original_headers := []
    move_number := 10 }

/-- A sequence for the record-formatting checks of run A. -/
def seq4 : PuzzleSeq :=
  { moves := [], alternatives := [], final_cp := 300, is_mate := false }

/-- Fen::from_position stand-in on concrete boards. -/
def fen4 (b : Board) : String := "fen" ++ toString b.id

/-- Concrete scanner run B (used for C9): as run A, but the engine reports a
best line capturing on the blunder destination square 10 with a 450 cp gap to
the second line, so the hanging filter fires. -/
def capMove : Move := Move.Normal Role.Queen 3 (some Role.Knight) 10 none

def post9 : Board := mkBoard Color.White [mvN 0, mvN 1] 9

def e9 : EngineOracle := fun b _ _ =>
  if b.id = 9 then
    [mkLine (Score.Centipawns 500) [capMove], mkLine (Score.Centipawns 50) [mvN 1]]
  else []

def ctx9 : CandidateContext :=
  { board_pre_blunder := pre1
    board_post_blunder := post9
    blunder_move := mvN 2
    prev_cp := 200
    post_cp := 0
    scan_depth := 1
    move_number := 5 }

/-- Concrete Phase-1 run (used for C2): two consecutive plies of one game, a
constant-evaluation oracle, no blunder anywhere. -/
def b20 : Board := mkBoard Color.White [] 0

def e2 : EngineOracle := fun _ _ _ => [mkLine (Score.Centipawns 0) [mvN 0]]

def r21 : MoveRecord := { board := b20, mv := mvN 0, move_idx := 1 }

def r22 : MoveRecord := { board := play0 b20 (mvN 0), mv := mvN 0, move_idx := 2 }

/-- Concrete run for the for_blunder gate (used by the C7 witness): the
evaluation falls from 200 to 0 across the played move. -/
def bW7 : Board := mkBoard Color.Black [] 0

def e7 : EngineOracle := fun b _ _ =>
  if b.id = 0 then [mkLine (Score.Centipawns 200) []]
  else [mkLine (Score.Centipawns 0) []]

/-- The context the C7-witness run produces. -/
def ctx7 : CandidateContext :=
  { board_pre_blunder := bW7
    board_post_blunder := play0 bW7 (mvN 0)
    blunder_move := mvN 0
    prev_cp := 200
    post_cp := 0
    scan_depth := 1
    move_number := 1 }

/-- Concrete builder run (used for C3): positions are numbered by id along the
line; the solver turns at ids 0 and 2 get a single clear line, the opponent
turns at ids 1 and 3 get a reply, and the solver turn at id 4 gets two lines
only 50 cp apart — within PUZZLE_UNICITY_THRESHOLD, hence ambiguous — after
two solver moves were already played. -/
def mkB (n : Nat) : Board := mkBoard Color.White [] n

def e3 : EngineOracle := fun b _ _ =>
  if b.id = 0 then [mkLine (Score.Centipawns 100) [mvN 0]]
  else if b.id = 1 then [mkLine (Score.Centipawns 100) [mvN 1]]
  else if b.id = 2 then [mkLine (Score.Centipawns 100) [mvN 2]]
  else if b.id = 3 then [mkLine (Score.Centipawns 100) [mvN 3]]
  else if b.id = 4 then
    [mkLine (Score.Centipawns 300) [mvN 4], mkLine (Score.Centipawns 250) [mvN 5]]
  else []

/-- The ambiguous solver response at id 4 of the C3 run. -/
def sr4 : SolverResponse :=
  { solution_move := mvN 4
    alternative_moves := []
    ambiguous := true
    score := Score.Centipawns 300
    post_cp := 300 }

/-- Concrete formatter run (used for C5): the SAN stand-in renders the id of
the position a move is played on, so the output shows which position each
alternative was rendered from; the mainline has three moves (ids 0, 1, 2,
ending at id 3) and one single-move alternative branching at the first solver
ply (id 0). -/
def san5 (b : Board) (_ : Move) : String := "m" ++ toString b.id

def parse5 (_ : String) : Except String Board := Except.error ("no fen")

def seq5 : PuzzleSeq :=
  { moves := [mvN 0, mvN 1, mvN 2]
    alternatives := [[mvN 9]]
    final_cp := 0
    is_mate := false }

/-- Concrete oracle run (used for C6): a loaded tablebase whose probes fail, a
position with no legal moves and an empty occupancy, and an engine oracle that
would answer the request. -/
def t6 : TbOracle :=
  { wdl := fun _ => Except.error ("probe falhou")
    dtz := fun _ => Except.error ("probe falhou") }

def e6 : EngineOracle := fun _ _ _ => [mkLine (Score.Centipawns 7) [mvN 0]]

def b6 : Board := mkBoard Color.White [] 0

def b6b : Board := mkBoard Color.White [mvN 0] 1

/-- Two bare kings (used for C10): no counted pieces, no castling rights. -/
def kingsOnly : Board := mkBoard Color.White [] 0

/-- Characterization of a fired blunder detection: the solver is the opponent
of the side to move, and the evaluation swing matches that side's direction. -/
theorem detect_fires (b : Board) (prev post : Int) (col : Color)
    (h : detect_eval_drop b prev post = (true, some col)) :
    (b.turn = Color.Black ∧ col = Color.White ∧ post + BLUNDER_THRESHOLD ≤ prev) ∨
      (b.turn = Color.White ∧ col = Color.Black ∧ prev + BLUNDER_THRESHOLD ≤ post) := by
  unfold detect_eval_drop at h
  dsimp only at h
  split_ifs at h with h1 h2
  · left
    refine ⟨h1.1, ?_, ?_⟩
    · cases h
      rfl
    · have := h1.2
      omega
  · right
    refine ⟨h2.1, ?_, ?_⟩
    · cases h
      rfl
    · have := h2.2
      omega
  · cases h

/-- detect_eval_drop never pairs a positive verdict with no solver colour. -/
theorem detect_no_orphan (b : Board) (prev post : Int) :
    detect_eval_drop b prev post ≠ (true, none) := by
  unfold detect_eval_drop
  dsimp only
  split_ifs <;> simp

/-- A successful find_candidate fixes the solver colour to the one chosen by
detect_eval_drop. -/
theorem find_candidate_detect (e : EngineOracle)
    (playc : Board → Move → Except String Board) (ctx : CandidateContext)
    (c : PuzzleCandidate)
    (h : (find_candidate e playc ctx).1 = Except.ok (some c)) :
    detect_eval_drop ctx.board_pre_blunder ctx.prev_cp ctx.post_cp =
      (true, some c.solver_color) := by
  unfold find_candidate at h
  rcases hdd : detect_eval_drop ctx.board_pre_blunder ctx.prev_cp ctx.post_cp with ⟨fl, sl⟩
  rw [hdd] at h
  cases fl
  · simp at h
  · cases sl with
    | none => simp at h
    | some solver =>
      dsimp only at h
      rcases hsk : skip_forced_move ctx.board_post_blunder solver with ⟨adj, fr, vl⟩
      rw [hsk] at h
      by_cases hv : vl = true
      · subst hv
        simp only [not_true, if_neg, ite_false, Bool.not_true] at h
        by_cases hh :
            (match dest_sq ctx.blunder_move with
              | some tgt => is_hanging e ctx.board_post_blunder tgt ctx.scan_depth
              | none => (false, [])).1 = true
        · rw [if_pos hh] at h
          simp at h
        · rw [if_neg hh] at h
          rcases hsc : sequential_caps e playc ctx.board_post_blunder ctx.scan_depth 5
            with ⟨res, lg⟩
          rw [hsc] at h
          match res with
          | Except.error s => simp at h
          | Except.ok true => simp at h
          | Except.ok false =>
            simp only [Except.ok.injEq, Option.some.injEq] at h
            subst h
            rfl
      · have hvf : vl = false := by
          cases vl
          · rfl
          · exact absurd rfl hv
        subst hvf
        simp at h

/-- C1 (counterexample): on the concrete run A the scanner emits a candidate
whose solver_color is White although the White-perspective evaluation went
down across the played move (post_cp 0 against prev_cp 200), while the spec
rule as claimed picks Black there. -/
theorem c1_counterexample :
    (find_candidate e1 playc0 ctx1).1 = Except.ok (some cand1) ∧
      cand1.solver_color = Color.White ∧
      spec_solver_color ctx1.prev_cp ctx1.post_cp = Color.Black :=
  ⟨rfl, rfl, rfl⟩

/-- C1 (amended): the solver colour of an emitted candidate is determined by
the side to move before the blunder, not by the sign of the evaluation change
alone: a Black mover yields a White solver and requires the evaluation to fall
by at least BLUNDER_THRESHOLD, a White mover yields a Black solver and
requires it to rise by at least BLUNDER_THRESHOLD. -/
theorem c1_solver_color (e : EngineOracle)
    (playc : Board → Move → Except String Board) (ctx : CandidateContext)
    (c : PuzzleCandidate)
    (h : (find_candidate e playc ctx).1 = Except.ok (some c)) :
    (ctx.board_pre_blunder.turn = Color.Black ∧ c.solver_color = Color.White ∧
      ctx.post_cp + BLUNDER_THRESHOLD ≤ ctx.prev_cp) ∨
    (ctx.board_pre_blunder.turn = Color.White ∧ c.solver_color = Color.Black ∧
      ctx.prev_cp + BLUNDER_THRESHOLD ≤ ctx.post_cp) :=
  detect_fires ctx.board_pre_blunder ctx.prev_cp ctx.post_cp c.solver_color
    (find_candidate_detect e playc ctx c h)

/-- C1 (witness): the amended statement instantiated on concrete run A. -/
theorem c1_witness :
    (ctx1.board_pre_blunder.turn = Color.Black ∧ cand1.solver_color = Color.White ∧
      ctx1.post_cp + BLUNDER_THRESHOLD ≤ ctx1.prev_cp) ∨
    (ctx1.board_pre_blunder.turn = Color.White ∧ cand1.solver_color = Color.Black ∧
      ctx1.prev_cp + BLUNDER_THRESHOLD ≤ ctx1.post_cp) :=
  c1_solver_color e1 playc0 ctx1 cand1 rfl

/-- C7 (counterexample): with White to move and the evaluation rising from 200
to 0... rather, falling by 200 — an absolute swing of 200 above the threshold
— no blunder is flagged, refuting the pure absolute-difference rule. -/
theorem c7_counterexample :
    spec_blunder 200 0 = true ∧
      detect_eval_drop (mkBoard Color.White [] 0) 200 0 = (false, none) :=
  ⟨by decide, rfl⟩

/-- C7 (amended): a ply is flagged exactly when the swing is at least
BLUNDER_THRESHOLD in the direction fixed by the side to move (a fall for a
Black mover, a rise for a White mover; the comparison is non-strict, so a
swing exactly at the threshold is accepted), and the for_blunder gate lets a
context through only when the evaluation fell by at least BLUNDER_THRESHOLD. -/
theorem c7_directional_threshold :
    (∀ (board : Board) (prev post : Int),
      ((detect_eval_drop board prev post).1 = true) ↔
        ((board.turn = Color.Black ∧ BLUNDER_THRESHOLD ≤ prev - post) ∨
          (board.turn = Color.White ∧ BLUNDER_THRESHOLD ≤ post - prev))) ∧
    (∀ (e : EngineOracle) (play : Board → Move → Board) (board : Board) (mv : Move)
      (d : DepthSet) (n : Nat) (ctx : CandidateContext),
      (for_blunder e play board mv d n).1 = Except.ok ctx →
        BLUNDER_THRESHOLD ≤ ctx.prev_cp - ctx.post_cp) := by
  constructor
  · intro board prev post
    unfold detect_eval_drop
    dsimp only
    split_ifs with h1 h2
    · simp only [true_iff]
      left
      exact h1
    · simp only [true_iff]
      right
      refine ⟨h2.1, ?_⟩
      have := h2.2
      simp only [BLUNDER_THRESHOLD] at *
      omega
    · simp only [false_iff]
      intro hc
      rcases hc with hb | hw
      · exact h1 hb
      · refine h2 ⟨hw.1, ?_⟩
        have := hw.2
        simp only [BLUNDER_THRESHOLD] at *
        omega
  · intro e play board mv d n ctx h
    unfold for_blunder at h
    rcases h1 : (e board d.scan 1).head? with _ | a_prev
    · rw [h1] at h
      simp at h
    · rw [h1] at h
      dsimp only at h
      rcases h2 : (e (play board mv) d.scan 1).head? with _ | a_post
      · rw [h2] at h
        simp at h
      · rw [h2] at h
        dsimp only at h
        by_cases h3 : Engine.to_cp (a_prev.score.getD (Score.Centipawns 0)) -
            Engine.to_cp (a_post.score.getD (Score.Centipawns 0)) < BLUNDER_THRESHOLD
        · rw [if_pos h3] at h
          exact absurd h (by simp)
        · rw [if_neg h3] at h
          simp only [Except.ok.injEq] at h
          subst h
          simp only
          omega

/-- C7 (witness): the for_blunder conjunct instantiated on the concrete gate
run, where the evaluation fell from 200 to 0. -/
theorem c7_witness : BLUNDER_THRESHOLD ≤ ctx7.prev_cp - ctx7.post_cp :=
  c7_directional_threshold.2 e7 play0 bW7 (mvN 0) d2 1 ctx7 rfl

/-- C9 (counterexample): on concrete run B the blunder passes the threshold
and legal-move checks, yet the (supposedly default-off) hanging-piece filter
fires and the candidate is rejected. -/
theorem c9_counterexample :
    detect_eval_drop pre1 200 0 = (true, some Color.White) ∧
      (skip_forced_move post9 Color.White).2.2 = true ∧
      (is_hanging e9 post9 10 1).1 = true ∧
      (find_candidate e9 playc0 ctx9).1 = Except.ok none :=
  ⟨rfl, rfl, rfl, rfl⟩

/-- C9 (amended): the hanging-piece filter is applied unconditionally — there
is no configuration switch — so whenever the blunder move has a destination
square and the engine marks it hanging, find_candidate rejects the ply
outright. -/
theorem c9_filters_always_applied (e : EngineOracle)
    (playc : Board → Move → Except String Board) (ctx : CandidateContext)
    (tgt : Square) (hdest : dest_sq ctx.blunder_move = some tgt)
    (hhang : (is_hanging e ctx.board_post_blunder tgt ctx.scan_depth).1 = true) :
    (find_candidate e playc ctx).1 = Except.ok none := by
  unfold find_candidate
  rcases hdd : detect_eval_drop ctx.board_pre_blunder ctx.prev_cp ctx.post_cp with ⟨fl, sl⟩
  cases fl
  · rfl
  · cases sl with
    | none => exact absurd hdd (detect_no_orphan _ _ _)
    | some solver =>
      dsimp only
      rcases hsk : skip_forced_move ctx.board_post_blunder solver with ⟨adj, fr, vl⟩
      dsimp only
      cases vl
      · simp
      · rw [hdest]
        dsimp only
        rw [if_neg (by simp), if_pos hhang]

/-- C9 (witness): the amended statement instantiated on concrete run B. -/
theorem c9_witness : (find_candidate e9 playc0 ctx9).1 = Except.ok none :=
  c9_filters_always_applied e9 playc0 ctx9 10 rfl rfl

/-- C2 (counterexample): on a two-ply game with no blunder the Phase-1 scanner
submits four positions to the engine — two per ply — and the position after
the first ply is analyzed twice (as the post position of ply 1 and again as
the pre position of ply 2), refuting both the one-call-per-ply count and the
never-re-evaluated caching claim. -/
theorem c2_counterexample :
    (phase1 e2 play0 playc0 d2 [r21, r22]).2 =
      [b20, play0 b20 (mvN 0), play0 b20 (mvN 0), play0 (play0 b20 (mvN 0)) (mvN 0)] ∧
      (phase1 e2 play0 playc0 d2 [r21, r22]).2.length ≠ [r21, r22].length ∧
      (phase1 e2 play0 playc0 d2 [r21, r22]).2[1]? =
        (phase1 e2 play0 playc0 d2 [r21, r22]).2[2]? :=
  ⟨rfl, by decide, rfl⟩

/-- C2 (amended): each processed ply costs two engine analyze calls, on the
position before and the position after the played move (whenever the first
analysis returns a line at all), with no caching of the previous ply's result;
consequently consecutive plies re-evaluate the shared position. -/
theorem c2_two_calls_per_ply (e : EngineOracle) (play : Board → Move → Board)
    (board : Board) (mv : Move) (d : DepthSet) (n : Nat) (a : AnalysisInfo)
    (h : (e board d.scan 1).head? = some a) :
    (for_blunder e play board mv d n).2 = [board, play board mv] := by
  unfold for_blunder
  rw [h]
  dsimp only
  rcases h2 : (e (play board mv) d.scan 1).head? with _ | a_post
  · rfl
  · dsimp only
    split_ifs <;> rfl

/-- C2 (witness): the amended statement instantiated on the concrete Phase-1
run's first ply. -/
theorem c2_witness :
    (for_blunder e2 play0 b20 (mvN 0) d2 1).2 = [b20, play0 b20 (mvN 0)] :=
  c2_two_calls_per_ply e2 play0 b20 (mvN 0) d2 1
    (mkLine (Score.Centipawns 0) [mvN 0]) rfl

/-- C3 (counterexample): on the concrete builder run the solver responses at
ids 0 and 2 are unambiguous, the response at id 4 (reached after two solver
moves, meeting SOLVER_MIN_MOVES) is ambiguous, and the builder run returns no
puzzle at all — the partial sequence is discarded instead of finalized. -/
theorem c3_counterexample :
    create_puzzle_tree 10 e3 play0 (mkB 0) Color.White 0 d2 = none ∧
      create_puzzle_tree_go e3 play0 Color.White 0 d2 8 (mkB 4)
        [mvN 0, mvN 1, mvN 2, mvN 3] [] 2 = none ∧
      (solver_response e3 (mkB 0) Color.White 0 d2).map SolverResponse.ambiguous =
        some false ∧
      (solver_response e3 (mkB 2) Color.White 0 d2).map SolverResponse.ambiguous =
        some false ∧
      solver_response e3 (mkB 4) Color.White 0 d2 = some sr4 ∧
      sr4.ambiguous = true ∧
      SOLVER_MIN_MOVES ≤ 2 :=
  ⟨rfl, rfl, rfl, rfl, rfl, rfl, by decide⟩

/-- C3 (amended): when the solver response at the current position is
ambiguous, the builder loop aborts and the whole candidate yields no puzzle —
the sequence built so far is discarded, whatever its length, rather than kept
for finalization. -/
theorem c3_ambiguous_aborts (e : EngineOracle) (play : Board → Move → Board)
    (solver_color : Color) (pre_cp : Int) (d : DepthSet) (fuel : Nat)
    (board : Board) (seq : List Move) (alts : List (List Move)) (nsol : Nat)
    (sr : SolverResponse)
    (h1 : solver_response e board solver_color pre_cp d = some sr)
    (h2 : sr.ambiguous = true) :
    create_puzzle_tree_go e play solver_color pre_cp d (fuel + 1) board seq alts
      nsol = none := by
  unfold create_puzzle_tree_go
  rw [h1]
  dsimp only
  rw [if_pos h2]

/-- C3 (witness): the amended statement instantiated at the ambiguous position
of the concrete builder run, with five solver moves already played. -/
theorem c3_witness :
    create_puzzle_tree_go e3 play0 Color.White 0 d2 1 (mkB 4) [] [] 5 = none :=
  c3_ambiguous_aborts e3 play0 Color.White 0 d2 0 (mkB 4) [] [] 5 sr4 rfl rfl

/-- C8 (counterexample): the claimed chain fails near the sentinel: the
centipawn value 1999996 has magnitude below MATE_OFFSET yet its key is not
below the key of MateIn 5. -/
theorem c8_counterexample :
    |(1999996 : Int)| < MATE_KEY_OFFSET ∧
      ¬ Engine.key (Score.Centipawns 1999996) < Engine.key (Score.MateIn 5) := by
  constructor <;> decide

/-- C8 (amended): the key injection yields the claimed strict chain
MateIn 1 over MateIn 5 over Centipawns v over MateIn (-5) over MateIn (-1)
for every centipawn value of magnitude below MATE_OFFSET minus 5. -/
theorem c8_key_total_order (v : Int) (h : |v| < MATE_KEY_OFFSET - 5) :
    Engine.key (Score.MateIn (-1)) < Engine.key (Score.MateIn (-5)) ∧
      Engine.key (Score.MateIn (-5)) < Engine.key (Score.Centipawns v) ∧
      Engine.key (Score.Centipawns v) < Engine.key (Score.MateIn 5) ∧
      Engine.key (Score.MateIn 5) < Engine.key (Score.MateIn 1) := by
  rw [abs_lt] at h
  simp only [Engine.key, MATE_KEY_OFFSET] at *
  norm_num
  omega

/-- C8 (witness): the amended chain instantiated at the centipawn value 0. -/
theorem c8_witness :
    Engine.key (Score.MateIn (-1)) < Engine.key (Score.MateIn (-5)) ∧
      Engine.key (Score.MateIn (-5)) < Engine.key (Score.Centipawns 0) ∧
      Engine.key (Score.Centipawns 0) < Engine.key (Score.MateIn 5) ∧
      Engine.key (Score.MateIn 5) < Engine.key (Score.MateIn 1) :=
  c8_key_total_order 0 (by decide)

/-- C10 (counterexample): the claimed bound 16/196 on the material factor is
wrong: on a board with no counted pieces (two bare kings) the factor is
24/196, strictly above 16/196. -/
theorem c10_counterexample : (16 : ℚ) / 196 < materialTerm kingsOnly := by
  norm_num [materialTerm, phase_value, kingsOnly, mkBoard]

/-- C10 (amended): the material factor of classify_phase is bounded by 24/196
(the weighted start value is 24, not 16), the combined value therefore stays
below the 0.80 Opening threshold, and classify_phase never returns Opening on
any board and ply count. -/
theorem c10_never_opening :
    (∀ b : Board, materialTerm b ≤ 24 / 196) ∧
      (∀ (b : Board) (plies : Nat), classify_phase b plies ≠ GamePhase.Opening) := by
  have hmat : ∀ b : Board, materialTerm b ≤ 24 / 196 := by
    intro b
    unfold materialTerm
    have hp : phase_value b ≤ 24 := by
      unfold phase_value
      omega
    have hq : ((phase_value b : ℚ)) ≤ 24 := by exact_mod_cast hp
    linarith
  refine ⟨hmat, ?_⟩
  intro b plies
  unfold classify_phase
  have h1 : materialTerm b ≤ 24 / 196 := hmat b
  have h2 : min ((plies : ℚ) / 80) 1 ≤ 1 := min_le_right _ _
  have h3 : (castleCount b : ℚ) / 4 ≤ 1 := by
    have hc : castleCount b ≤ 4 := by
      unfold castleCount
      split_ifs <;> norm_num
    have hcq : (castleCount b : ℚ) ≤ 4 := by exact_mod_cast hc
    linarith
  dsimp only
  split_ifs with hv
  · exfalso
    linarith
  · intro hcon
    exact GamePhase.noConfusion hcon
  · intro hcon
    exact GamePhase.noConfusion hcon

/-- Evaluation of classify_phase on the post position of concrete run A: no
counted material leaves the weighted phase value at 24, the combined value
(2 times 24/196 plus 1/8 plus 0) / 4 is far below the 0.20 Endgame bound. -/
theorem classify_phase_post1 :
    classify_phase cand1.board_post_blunder cand1.move_number = GamePhase.Endgame := by
  show classify_phase post1 10 = GamePhase.Endgame
  unfold classify_phase materialTerm phase_value castleCount post1 mkBoard
  dsimp only
  rw [min_eq_left (by norm_num)]
  rw [if_neg (by norm_num), if_pos (by norm_num)]

/-- C4 (code bug): on concrete run A the scanner emits its candidate with an
empty original_headers field — find_candidate always writes an empty vector
there, with no access to the game headers carried by the move records — so the
exported header block consists of the four added headers only; any original
game header is lost. The move-list half of the claim does hold: the rendered
list is the blunder move followed by the sequence moves. -/
theorem c4_headers_dropped :
    (find_candidate e1 playc0 ctx1).1 = Except.ok (some cand1) ∧
      cand1.original_headers = [] ∧
      puzzle_headers fen4 cand1 seq4 =
        [("Phase", "Endgame"), ("Tactical", "Advantage"), ("SetUp", "1"),
          ("FEN", "fen0")] ∧
      puzzle_moves cand1 seq4 = [cand1.blunder_move] ++ seq4.moves := by
  refine ⟨rfl, rfl, ?_, rfl⟩
  unfold puzzle_headers
  rw [classify_phase_post1]
  decide

/-- C5 (code bug): on the concrete formatter run the single alternative, which
branches at the first solver ply (the position with id 0), is rendered on the
position reached after the whole mainline (id 3): the emitted fragment is
(m3), whereas rendering at the branch position would give m0. -/
theorem c5_alt_rendered_from_final :
    build_pgn_san san5 play0 parse5 (mkB 0) [] seq5 =
        Except.ok ("\n1. m0 m1 2. m2 (m3)") ∧
      san5 (mkB 0) (mvN 9) = "m0" ∧
      ("m3" : String) ≠ "m0" :=
  ⟨rfl, rfl, by decide⟩

/-- C6 (counterexample): with a tablebase loaded and at most 7 occupied
squares, a failing probe makes the whole analyze request fail — both when the
position has no legal move and when the dataset lookup itself errors — instead
of falling through to the engine, whose answer would have been available. -/
theorem c6_counterexample :
    analyze_with_tb (some t6) playc0 e6 b6 5 1 =
        Except.error ("tablebase não gerou movimento") ∧
      analyze_with_tb (some t6) playc0 e6 b6b 5 1 = Except.error ("probe falhou") ∧
      analyze_with_tb (some t6) playc0 e6 b6 5 1 ≠ Except.ok (e6 b6 5 1) :=
  ⟨rfl, rfl, fun hcon => Except.noConfusion hcon⟩

/-- C6 (amended): when the oracle is engaged (tablebase present, at most 7
occupied squares) and the probe fails, analyze propagates that error and the
request fails; the engine is not consulted as a fallback. -/
theorem c6_error_propagates (t : TbOracle)
    (playc : Board → Move → Except String Board) (e : EngineOracle)
    (board : Board) (depth mpv : Nat) (msg : String)
    (hocc : occupied_count board ≤ 7)
    (hprobe : probe_tablebase t playc board = Except.error msg) :
    analyze_with_tb (some t) playc e board depth mpv = Except.error msg := by
  unfold analyze_with_tb
  dsimp only
  rw [if_pos hocc, hprobe]

/-- C6 (witness): the amended statement instantiated on the concrete failing
oracle run. -/
theorem c6_witness :
    analyze_with_tb (some t6) playc0 e6 b6 5 1 =
      Except.error ("tablebase não gerou movimento") :=
  c6_error_propagates t6 playc0 e6 b6 5 1 ("tablebase não gerou movimento")
    (by decide) rfl

end Cpe
